import Mathlib

/-!
Verification of the imputation and date-indexing core of the
us_renewable_energy_forecast data-preparation pipeline
(src/01_data_preparation/src/data_loader.py).

A pandas DataFrame is modelled as an index (a list of key cells, with an
optional index name) together with an ordered association list of named
columns.  A cell is either missing (NaN), a rational number, a string, or a
date.  The two core functions `crear_indice_fecha` and
`imputar_datos_consumo` are translated from the Python source; fallible
behaviour (pandas exceptions) is modelled with `Except`.
-/

set_option maxRecDepth 100000

deriving instance DecidableEq for Except

namespace DataPrep

/-- A single table cell: missing (NaN), numeric, string, or datetime.
Numbers are modelled as rationals; a date carries year, month, day. -/
inductive Cell where
  | na
  | num (q : ℚ)
  | str (s : String)
  | date (y m d : ℤ)
  deriving DecidableEq

/-- True exactly for the missing cell (pandas NaN). -/
def Cell.isNA : Cell → Bool
  | .na => true
  | _ => false

/-- True exactly for numeric cells. -/
def Cell.isNum : Cell → Bool
  | .num _ => true
  | _ => false

/-- A pandas DataFrame: an optionally named index of key cells and an
ordered list of named columns.  Each column is the list of its cells in
row order (row i of column c is `c.get? i`). -/
structure DataFrame where
  indexName : Option String
  index : List Cell
  cols : List (String × List Cell)
  deriving DecidableEq

/-- First column entry with the given name in a column list. -/
def findColumn (n : String) : List (String × List Cell) → Option (List Cell)
  | [] => none
  | p :: rest => if p.1 = n then some p.2 else findColumn n rest

/-- Replace every column entry with the given name in a column list. -/
def replaceColumn (n : String) (v : List Cell) :
    List (String × List Cell) → List (String × List Cell)
  | [] => []
  | p :: rest => (if p.1 = n then (p.1, v) else p) :: replaceColumn n v rest

/-- Column lookup by name (`df[name]`): the first column with that name. -/
def lookupCol (t : DataFrame) (n : String) : Option (List Cell) :=
  findColumn n t.cols

/-- Whether a column of that name exists (`name in df.columns`). -/
def hasCol (t : DataFrame) (n : String) : Bool :=
  (lookupCol t n).isSome

/-- Whole-column assignment (`df[name] = v` for an existing name):
every column entry carrying the name is replaced by `v`. -/
def setCol (t : DataFrame) (n : String) (v : List Cell) : DataFrame :=
  { t with cols := replaceColumn n v t.cols }

/-! ### crear_indice_fecha (the Date Indexer) -/

/-- Error raised by the Date Indexer when `pd.to_datetime` cannot assemble
a calendar date from a (Year, Month) pair. -/
inductive DateError where
  | malformedDate
  deriving DecidableEq

/-- Assemble one row's date from its Year and Month cells, day fixed at 1,
as `pd.to_datetime` does on the Year/Month/Day component columns: both
components must be integral numbers and the month must lie in 1..12
(pandas Timestamp range bounds on the year are not modelled beyond
positivity). Returns `none` when the pair cannot be parsed. -/
def toDateCell (yc mc : Cell) : Option Cell :=
  match yc, mc with
  | .num y, .num m =>
      if y.den = 1 ∧ m.den = 1 ∧ 1 ≤ y.num ∧ 1 ≤ m.num ∧ m.num ≤ 12 then
        some (.date y.num m.num 1)
      else none
  | _, _ => none

/-- Row-wise date assembly over the zipped Year and Month columns; fails
(as `pd.to_datetime` raises) as soon as one row cannot be parsed. -/
def buildDates : List (Cell × Cell) → Option (List Cell)
  | [] => some []
  | p :: rest =>
    match toDateCell p.1 p.2, buildDates rest with
    | some d, some ds => some (d :: ds)
    | _, _ => none

/-- The names dropped by `df_modificado.drop(columns=['Year', 'Month', 'Day'])`. -/
def droppedName (s : String) : Bool :=
  s = "Year" || s = "Month" || s = "Day"

/-- Translation of `crear_indice_fecha`: if a `datetime` column exists the
copy is returned unchanged; otherwise, when `Year` and `Month` columns are
both present, a Day of 1 is synthesized, the dates are assembled and set as
the index, and the Year/Month/Day columns are dropped; otherwise the copy
is returned unchanged. The Python code inspects only `df.columns`, never
the name of the existing index. -/
def crear_indice_fecha (t : DataFrame) : Except DateError DataFrame :=
  if hasCol t "datetime" then .ok t
  else
    match lookupCol t "Year", lookupCol t "Month" with
    | some ys, some ms =>
      match buildDates (ys.zip ms) with
      | some ds =>
          .ok { indexName := some "datetime"
                index := ds
                cols := t.cols.filter (fun p => !droppedName p.1) }
      | none => .error .malformedDate
    | _, _ => .ok t

/-! ### imputar_datos_consumo (the Consumption Imputer) -/

/-- Errors raised by the Imputer: `columnNotFound` models the KeyError from
`df[columna]` on an absent name; `nonNumericColumn` models the TypeError
raised by `interpolate` on a column whose non-missing values are not
numeric. -/
inductive ImputeError where
  | columnNotFound
  | nonNumericColumn
  deriving DecidableEq

/-- `fillna(0)` on one cell. -/
def fillna0 (c : Cell) : Cell :=
  if c.isNA then .num 0 else c

/-- Position of the first non-missing cell (`first_valid_index`, expressed
as a row position; the table's rows are addressed positionally, matching
label slicing over the unique monotone index the pipeline uses). -/
def firstValidPos : List Cell → Option ℕ
  | [] => none
  | c :: rest =>
      if c.isNA then (firstValidPos rest).map (· + 1) else some 0

/-- The positions (counted from `i`) and values of the numeric cells of a
column, in ascending position order. -/
def numAtFrom (i : ℕ) : List Cell → List (ℕ × ℚ)
  | [] => []
  | c :: rest =>
    match c with
    | .num q => (i, q) :: numAtFrom (i + 1) rest
    | _ => numAtFrom (i + 1) rest

/-- The positions and values of the numeric cells of a column, in
ascending position order. -/
def numAt (xs : List Cell) : List (ℕ × ℚ) :=
  numAtFrom 0 xs

/-- One cell of `interpolate(method='linear', limit_direction='both')`:
a present cell is kept; a missing cell is linearly interpolated between its
nearest numeric neighbours, or copied from the single neighbour at a
boundary, or left missing when the column has no numeric cell at all. -/
def interpCell (xs : List Cell) (i : ℕ) (c : Cell) : Cell :=
  if c.isNA then
    match ((numAt xs).filter (fun p => p.1 < i)).getLast?,
          ((numAt xs).filter (fun p => i < p.1)).head? with
    | some jv, some kv =>
        .num (jv.2 + (kv.2 - jv.2) * ((i : ℚ) - jv.1) / ((kv.1 : ℚ) - jv.1))
    | some jv, none => .num jv.2
    | none, some kv => .num kv.2
    | none, none => .na
  else c

/-- Interpolation of the cells of a suffix of `xs` starting at position
`i`, each against the full column `xs`. -/
def interpFrom (xs : List Cell) (i : ℕ) : List Cell → List Cell
  | [] => []
  | c :: rest => interpCell xs i c :: interpFrom xs (i + 1) rest

/-- `interpolate(method='linear', limit_direction='both')` on a column:
`method='linear'` treats the values as equally spaced, ignoring the index,
so interpolation is positional. -/
def interpolateLinear (xs : List Cell) : List Cell :=
  interpFrom xs 0 xs

/-- Imputation of one target column, translated from the loop body of
`imputar_datos_consumo`: an absent name raises KeyError; with a first
valid position `p`, rows before `p` are `fillna(0)`-filled and rows from
`p` on are interpolated (which raises TypeError when a present cell is not
numeric; the overlap row `p` is present, hence written back unchanged by
both statements); with no valid position the whole column is
`fillna(0)`-filled. -/
def processCol (t : DataFrame) (n : String) : Except ImputeError DataFrame :=
  match lookupCol t n with
  | none => .error .columnNotFound
  | some xs =>
    match firstValidPos xs with
    | some p =>
        if xs.all (fun c => c.isNA || c.isNum) then
          .ok (setCol t n ((xs.take p).map fillna0 ++ interpolateLinear (xs.drop p)))
        else .error .nonNumericColumn
    | none => .ok (setCol t n (xs.map fillna0))

/-- Translation of `imputar_datos_consumo`: the target columns are
processed sequentially on a copy of the table; the first pandas exception
aborts the whole call. -/
def imputar_datos_consumo (t : DataFrame) (cs : List String) :
    Except ImputeError DataFrame :=
  match cs with
  | [] => .ok t
  | n :: rest =>
    match processCol t n with
    | .ok t1 => imputar_datos_consumo t1 rest
    | .error e => .error e

/-- A target column is fit for imputation: it exists and every non-missing
cell is numeric. -/
def colOk (t : DataFrame) (n : String) : Bool :=
  match lookupCol t n with
  | some xs => xs.all (fun c => c.isNA || c.isNum)
  | none => false

/-- Every cell of the column is numeric (in particular none is missing). -/
def allNum (xs : List Cell) : Bool :=
  xs.all Cell.isNum

/-- The column has no missing cell. -/
def noNA (xs : List Cell) : Bool :=
  xs.all (fun c => !c.isNA)

/-! ### Basic cell and column-access lemmas -/

lemma Cell.isNA_of_not_isNum {c : Cell} (h : c.isNum = true) : c.isNA = false := by
  cases c <;> simp_all [Cell.isNum, Cell.isNA]

lemma Cell.naOrNum_of_allNum {xs : List Cell} (h : allNum xs = true) :
    (xs.all fun c => c.isNA || c.isNum) = true := by
  simp only [allNum, List.all_eq_true] at h ⊢
  intro c hc
  simp [h c hc]

lemma noNA_of_allNum {xs : List Cell} (h : allNum xs = true) : noNA xs = true := by
  simp only [allNum, noNA, List.all_eq_true] at h ⊢
  intro c hc
  simp [Cell.isNA_of_not_isNum (h c hc)]

lemma findColumn_none_iff {n : String} {l : List (String × List Cell)} :
    findColumn n l = none ↔ n ∉ l.map Prod.fst := by
  induction l with
  | nil => simp [findColumn]
  | cons a l ih =>
    by_cases h : a.1 = n
    · simp [findColumn, h]
    · have h2 : ¬ n = a.1 := fun hh => h hh.symm
      simp [findColumn, h, ih, h2]

lemma lookupCol_eq_none_iff {t : DataFrame} {n : String} :
    lookupCol t n = none ↔ hasCol t n = false := by
  rw [hasCol]
  cases lookupCol t n <;> simp

lemma lookupCol_isSome_iff {t : DataFrame} {n : String} :
    (∃ xs, lookupCol t n = some xs) ↔ hasCol t n = true := by
  constructor
  · intro ⟨xs, hxs⟩
    rw [hasCol, hxs]
    rfl
  · intro h
    cases hx : lookupCol t n with
    | none => rw [hasCol, hx] at h; simp at h
    | some xs => exact ⟨xs, rfl⟩

lemma hasCol_false_iff {t : DataFrame} {n : String} :
    hasCol t n = false ↔ n ∉ t.cols.map Prod.fst := by
  rw [← lookupCol_eq_none_iff, lookupCol, findColumn_none_iff]

lemma setCol_index (t : DataFrame) (n : String) (v : List Cell) :
    (setCol t n v).index = t.index := rfl

lemma setCol_indexName (t : DataFrame) (n : String) (v : List Cell) :
    (setCol t n v).indexName = t.indexName := rfl

lemma replaceColumn_names (n : String) (v : List Cell)
    (l : List (String × List Cell)) :
    (replaceColumn n v l).map Prod.fst = l.map Prod.fst := by
  induction l with
  | nil => rfl
  | cons a l ih =>
    by_cases h : a.1 = n <;> simp [replaceColumn, h, ih]

lemma setCol_names (t : DataFrame) (n : String) (v : List Cell) :
    (setCol t n v).cols.map Prod.fst = t.cols.map Prod.fst :=
  replaceColumn_names n v t.cols

lemma findColumn_replaceColumn_same {n : String} {xs : List Cell}
    {l : List (String × List Cell)} (h : findColumn n l = some xs)
    (v : List Cell) : findColumn n (replaceColumn n v l) = some v := by
  induction l with
  | nil => simp [findColumn] at h
  | cons a l ih =>
    by_cases ha : a.1 = n
    · simp [findColumn, replaceColumn, ha]
    · rw [findColumn, if_neg ha] at h
      rw [replaceColumn, if_neg ha, findColumn, if_neg ha]
      exact ih h

lemma lookupCol_setCol_same {t : DataFrame} {n : String} {xs : List Cell}
    (h : lookupCol t n = some xs) (v : List Cell) :
    lookupCol (setCol t n v) n = some v :=
  findColumn_replaceColumn_same h v

lemma findColumn_replaceColumn_ne {n m : String} (hne : m ≠ n)
    (v : List Cell) (l : List (String × List Cell)) :
    findColumn m (replaceColumn n v l) = findColumn m l := by
  induction l with
  | nil => rfl
  | cons a l ih =>
    by_cases ha : a.1 = n
    · have ham : ¬ a.1 = m := fun hh => hne (hh.symm.trans ha)
      rw [replaceColumn, if_pos ha, findColumn, findColumn, if_neg ham]
      have hfst : ((a.1, v) : String × List Cell).1 = a.1 := rfl
      rw [if_neg (hfst ▸ ham)]
      exact ih
    · rw [replaceColumn, if_neg ha, findColumn, findColumn]
      by_cases ham : a.1 = m
      · rw [if_pos ham, if_pos ham]
      · rw [if_neg ham, if_neg ham]
        exact ih

lemma lookupCol_setCol_ne {t : DataFrame} {n m : String} (hne : m ≠ n)
    (v : List Cell) : lookupCol (setCol t n v) m = lookupCol t m :=
  findColumn_replaceColumn_ne hne v t.cols

lemma replaceColumn_not_mem {n : String} {l : List (String × List Cell)}
    (h : n ∉ l.map Prod.fst) (v : List Cell) : replaceColumn n v l = l := by
  induction l with
  | nil => rfl
  | cons a l ih =>
    simp only [List.map_cons, List.mem_cons] at h
    push_neg at h
    have h1 : ¬ a.1 = n := fun hh => h.1 hh.symm
    simp [replaceColumn, h1, ih h.2]

lemma replaceColumn_self {n : String} {xs : List Cell}
    {l : List (String × List Cell)} (hnd : (l.map Prod.fst).Nodup)
    (h : findColumn n l = some xs) : replaceColumn n xs l = l := by
  induction l with
  | nil => simp [findColumn] at h
  | cons a l ih =>
    simp only [List.map_cons, List.nodup_cons] at hnd
    by_cases ha : a.1 = n
    · rw [findColumn, if_pos ha, Option.some.injEq] at h
      have hmem : n ∉ l.map Prod.fst := ha ▸ hnd.1
      rw [replaceColumn, if_pos ha, replaceColumn_not_mem hmem, ← h]
    · rw [findColumn, if_neg ha] at h
      rw [replaceColumn, if_neg ha, ih hnd.2 h]

lemma setCol_self {t : DataFrame} {n : String} {xs : List Cell}
    (hnd : (t.cols.map Prod.fst).Nodup) (h : lookupCol t n = some xs) :
    setCol t n xs = t := by
  obtain ⟨iN, idx, l⟩ := t
  simp only [setCol, DataFrame.mk.injEq, true_and]
  exact replaceColumn_self hnd h

/-! ### Lemmas about first_valid_index and interpolation -/

lemma firstValidPos_none_iff {xs : List Cell} :
    firstValidPos xs = none ↔ ∀ c ∈ xs, c.isNA = true := by
  induction xs with
  | nil => simp [firstValidPos]
  | cons c rest ih =>
    by_cases h : c.isNA
    · simp [firstValidPos, h, Option.map_eq_none', ih]
    · simp [firstValidPos, h]

lemma firstValidPos_get {xs : List Cell} {p : ℕ}
    (h : firstValidPos xs = some p) :
    ∃ c, xs[p]? = some c ∧ c.isNA = false := by
  induction xs generalizing p with
  | nil => simp [firstValidPos] at h
  | cons c rest ih =>
    by_cases hc : c.isNA
    · rw [firstValidPos, if_pos hc] at h
      cases hr : firstValidPos rest with
      | none => rw [hr] at h; simp at h
      | some q =>
        rw [hr] at h
        simp only [Option.map_some', Option.some.injEq] at h
        obtain ⟨c', hc', hna⟩ := ih hr
        exact ⟨c', by rw [← h, List.getElem?_cons_succ]; exact hc', hna⟩
    · rw [firstValidPos, if_neg hc] at h
      simp only [Option.some.injEq] at h
      refine ⟨c, ?_, by simpa using hc⟩
      rw [← h, List.getElem?_cons_zero]

lemma numAtFrom_mem {xs : List Cell} {j : ℕ} {q : ℚ} (i : ℕ)
    (h : xs[j]? = some (Cell.num q)) : (i + j, q) ∈ numAtFrom i xs := by
  induction xs generalizing i j with
  | nil => simp at h
  | cons c rest ih =>
    cases j with
    | zero =>
      simp only [List.getElem?_cons_zero, Option.some.injEq] at h
      subst h
      simp [numAtFrom]
    | succ j' =>
      rw [List.getElem?_cons_succ] at h
      have hmem := ih (i + 1) h
      have harith : i + (j' + 1) = (i + 1) + j' := by omega
      rw [harith]
      cases c <;> simp only [numAtFrom] <;>
        first
          | exact hmem
          | exact List.mem_cons_of_mem _ hmem

lemma interpCell_not_na {xs : List Cell} {i : ℕ} {c : Cell}
    (hc : c.isNA = false) : interpCell xs i c = c := by
  simp [interpCell, hc]

lemma interpCell_isNum {xs : List Cell} {i : ℕ} {c : Cell} {jq : ℕ × ℚ}
    (hmem : jq ∈ numAt xs) (hlt : jq.1 < i) (hc : c.isNA = true) :
    (interpCell xs i c).isNum = true := by
  have hne : (numAt xs).filter (fun p => p.1 < i) ≠ [] := by
    intro hemp
    have hjq : jq ∈ (numAt xs).filter (fun p => p.1 < i) :=
      List.mem_filter.mpr ⟨hmem, by simpa using hlt⟩
    rw [hemp] at hjq
    simp at hjq
  obtain ⟨jv, hjv⟩ :=
    Option.isSome_iff_exists.mp (List.getLast?_isSome.mpr hne)
  cases hh : ((numAt xs).filter (fun p => i < p.1)).head? <;>
    simp [interpCell, hc, hjv, hh, Cell.isNum]

lemma interpFrom_allNum {ys : List Cell} {q0 : ℚ}
    (hmem : (0, q0) ∈ numAt ys) :
    ∀ (l : List Cell) (i : ℕ), 1 ≤ i →
      (∀ c ∈ l, (c.isNA || c.isNum) = true) →
      allNum (interpFrom ys i l) = true := by
  intro l
  induction l with
  | nil => intro i hi hall; rfl
  | cons c rest ih =>
    intro i hi hall
    have hc := hall c (List.mem_cons_self c rest)
    rw [interpFrom, allNum, List.all_cons]
    have hrest : allNum (interpFrom ys (i + 1) rest) = true :=
      ih (i + 1) (by omega) (fun d hd => hall d (List.mem_cons_of_mem c hd))
    rw [allNum] at hrest
    rw [hrest, Bool.and_true]
    by_cases hna : c.isNA
    · exact interpCell_isNum hmem (by omega) hna
    · rw [interpCell_not_na (by simpa using hna)]
      simp only [Bool.or_eq_true] at hc
      rcases hc with hc | hc
      · rw [hc] at hna; exact absurd rfl hna
      · exact hc

lemma interpolateLinear_allNum {ys : List Cell} {q0 : ℚ}
    (h0 : ys[0]? = some (Cell.num q0))
    (hall : ∀ c ∈ ys, (c.isNA || c.isNum) = true) :
    allNum (interpolateLinear ys) = true := by
  have hmem : (0, q0) ∈ numAt ys := by
    have := numAtFrom_mem 0 h0
    simpa [numAt] using this
  cases ys with
  | nil => simp at h0
  | cons c rest =>
    simp only [List.getElem?_cons_zero, Option.some.injEq] at h0
    subst h0
    rw [interpolateLinear, interpFrom, allNum, List.all_cons]
    have hhead : interpCell (Cell.num q0 :: rest) 0 (Cell.num q0) = Cell.num q0 :=
      interpCell_not_na rfl
    rw [hhead]
    have hrest := interpFrom_allNum hmem rest 1 (by omega)
      (fun d hd => hall d (List.mem_cons_of_mem _ hd))
    rw [allNum] at hrest
    rw [hrest]
    rfl

lemma interpFrom_of_noNA {ys : List Cell} :
    ∀ (l : List Cell) (i : ℕ), (∀ c ∈ l, c.isNA = false) →
      interpFrom ys i l = l := by
  intro l
  induction l with
  | nil => intro i _; rfl
  | cons c rest ih =>
    intro i hall
    rw [interpFrom, interpCell_not_na (hall c (List.mem_cons_self c rest)),
      ih (i + 1) (fun d hd => hall d (List.mem_cons_of_mem c hd))]

lemma interpolateLinear_of_allNum {ys : List Cell} (h : allNum ys = true) :
    interpolateLinear ys = ys := by
  rw [interpolateLinear]
  refine interpFrom_of_noNA ys 0 (fun c hc => ?_)
  rw [allNum, List.all_eq_true] at h
  exact Cell.isNA_of_not_isNum (h c hc)

/-! ### Lemmas about the single-column imputation step -/

lemma fillna0_isNum {c : Cell} (h : (c.isNA || c.isNum) = true) :
    (fillna0 c).isNum = true := by
  cases c <;> simp_all [fillna0, Cell.isNA, Cell.isNum]

lemma processCol_ok_cases {t t1 : DataFrame} {n : String}
    (h : processCol t n = .ok t1) :
    ∃ xs, lookupCol t n = some xs ∧
      ((∃ p, firstValidPos xs = some p ∧
          (xs.all fun c => c.isNA || c.isNum) = true ∧
          t1 = setCol t n
            ((xs.take p).map fillna0 ++ interpolateLinear (xs.drop p))) ∨
        (firstValidPos xs = none ∧ t1 = setCol t n (xs.map fillna0))) := by
  rw [processCol] at h
  split at h
  next hx => exact absurd h (by simp)
  next xs hx =>
    refine ⟨xs, hx, ?_⟩
    split at h
    next p hp =>
      split at h
      next hall => exact Or.inl ⟨p, hp, hall, (Except.ok.inj h).symm⟩
      next hall => exact absurd h (by simp)
    next hp => exact Or.inr ⟨hp, (Except.ok.inj h).symm⟩

lemma processCol_frame {t t1 : DataFrame} {n : String}
    (h : processCol t n = .ok t1) :
    t1.index = t.index ∧ t1.indexName = t.indexName ∧
      t1.cols.map Prod.fst = t.cols.map Prod.fst ∧
      ∀ m, m ≠ n → lookupCol t1 m = lookupCol t m := by
  obtain ⟨xs, hx, hcase⟩ := processCol_ok_cases h
  rcases hcase with ⟨p, _, _, ht1⟩ | ⟨_, ht1⟩ <;>
    exact ht1 ▸ ⟨setCol_index .., setCol_indexName .., setCol_names ..,
      fun m hm => lookupCol_setCol_ne hm _⟩

lemma processCol_allNum {t t1 : DataFrame} {n : String}
    (h : processCol t n = .ok t1) :
    ∃ v, lookupCol t1 n = some v ∧ allNum v = true := by
  obtain ⟨xs, hx, hcase⟩ := processCol_ok_cases h
  rcases hcase with ⟨p, hp, hall, ht1⟩ | ⟨hp, ht1⟩
  · refine ⟨_, ht1 ▸ lookupCol_setCol_same hx _, ?_⟩
    rw [allNum, List.all_append]
    have htake : ((xs.take p).map fillna0).all Cell.isNum = true := by
      rw [List.all_eq_true]
      intro c hc
      obtain ⟨c', hc', rfl⟩ := List.mem_map.mp hc
      exact fillna0_isNum
        (List.all_eq_true.mp hall c' (List.mem_of_mem_take hc'))
    have hdrop : allNum (interpolateLinear (xs.drop p)) = true := by
      obtain ⟨c, hcp, hcna⟩ := firstValidPos_get hp
      have hcnum : c.isNum = true := by
        have := List.all_eq_true.mp hall c (by
          have : c ∈ xs := by
            have hplt : p < xs.length := by
              by_contra hge
              rw [List.getElem?_eq_none (by omega)] at hcp
              exact absurd hcp (by simp)
            exact List.mem_iff_getElem?.mpr ⟨p, hcp⟩
          exact this)
        simpa [hcna] using this
      obtain ⟨q0, rfl⟩ : ∃ q0, c = Cell.num q0 := by
        cases c <;> simp_all [Cell.isNum]
      have h0 : (xs.drop p)[0]? = some (Cell.num q0) := by
        rw [List.getElem?_drop]
        simpa using hcp
      exact interpolateLinear_allNum h0
        (fun d hd => List.all_eq_true.mp hall d (List.mem_of_mem_drop hd))
    rw [allNum] at hdrop
    rw [htake, hdrop]
    rfl
  · refine ⟨_, ht1 ▸ lookupCol_setCol_same hx _, ?_⟩
    have hna := firstValidPos_none_iff.mp hp
    rw [allNum, List.all_eq_true]
    intro c hc
    obtain ⟨c', hc', rfl⟩ := List.mem_map.mp hc
    exact fillna0_isNum (by simp [hna c' hc'])

lemma colOk_of_lookup_allNum {t : DataFrame} {n : String} {v : List Cell}
    (h : lookupCol t n = some v) (hall : allNum v = true) :
    colOk t n = true := by
  rw [colOk, h]
  exact Cell.naOrNum_of_allNum hall

lemma processCol_colOk {t t1 : DataFrame} {n : String}
    (h : processCol t n = .ok t1) : colOk t n = true := by
  obtain ⟨xs, hx, hcase⟩ := processCol_ok_cases h
  rw [colOk, hx]
  rcases hcase with ⟨p, _, hall, _⟩ | ⟨hp, _⟩
  · exact hall
  · have hna := firstValidPos_none_iff.mp hp
    rw [List.all_eq_true]
    intro c hc
    simp [hna c hc]

lemma processCol_ok_of_colOk {t : DataFrame} {n : String}
    (h : colOk t n = true) : ∃ t1, processCol t n = .ok t1 := by
  cases hx : lookupCol t n with
  | none => simp [colOk, hx] at h
  | some xs =>
    simp only [colOk, hx] at h
    cases hp : firstValidPos xs with
    | some p =>
      refine ⟨setCol t n
        ((xs.take p).map fillna0 ++ interpolateLinear (xs.drop p)), ?_⟩
      simp only [processCol, hx, hp]
      rw [if_pos h]
    | none =>
      refine ⟨setCol t n (xs.map fillna0), ?_⟩
      simp only [processCol, hx, hp]

lemma processCol_id {t : DataFrame} {n : String} {xs : List Cell}
    (hnd : (t.cols.map Prod.fst).Nodup) (h : lookupCol t n = some xs)
    (hall : allNum xs = true) : processCol t n = .ok t := by
  cases xs with
  | nil =>
    have hfv : firstValidPos ([] : List Cell) = none := rfl
    simp only [processCol, h, hfv, List.map_nil, setCol_self hnd h]
  | cons c rest =>
    have hnum : c.isNum = true :=
      List.all_eq_true.mp hall c (List.mem_cons_self c rest)
    have hna : c.isNA = false := Cell.isNA_of_not_isNum hnum
    have hfv : firstValidPos (c :: rest) = some 0 := by
      rw [firstValidPos, if_neg (by simp [hna])]
    simp only [processCol, h, hfv, Cell.naOrNum_of_allNum hall, if_true,
      List.take_zero, List.drop_zero, List.map_nil, List.nil_append,
      interpolateLinear_of_allNum hall, setCol_self hnd h]

lemma processCol_err {t : DataFrame} {n : String} (h : colOk t n = false) :
    (hasCol t n = false ∧ processCol t n = .error .columnNotFound) ∨
    (hasCol t n = true ∧ processCol t n = .error .nonNumericColumn) := by
  cases hx : lookupCol t n with
  | none =>
    exact Or.inl ⟨lookupCol_eq_none_iff.mp hx, by simp only [processCol, hx]⟩
  | some xs =>
    simp only [colOk, hx] at h
    refine Or.inr ⟨lookupCol_isSome_iff.mp ⟨xs, hx⟩, ?_⟩
    cases hp : firstValidPos xs with
    | none =>
      exfalso
      have hna := firstValidPos_none_iff.mp hp
      have hall : (xs.all fun c => c.isNA || c.isNum) = true := by
        rw [List.all_eq_true]
        intro c hc
        simp [hna c hc]
      rw [hall] at h
      exact absurd h (by simp)
    | some p =>
      simp only [processCol, hx, hp]
      rw [if_neg (by simp [h])]

/-! ### Lemmas about the full imputation pass -/

lemma colOk_congr {t t1 : DataFrame} {n : String}
    (h : lookupCol t1 n = lookupCol t n) : colOk t1 n = colOk t n := by
  rw [colOk, colOk, h]

lemma imputar_frame {cs : List String} :
    ∀ {t t' : DataFrame}, imputar_datos_consumo t cs = .ok t' →
      t'.index = t.index ∧ t'.indexName = t.indexName ∧
      t'.cols.map Prod.fst = t.cols.map Prod.fst ∧
      ∀ m, m ∉ cs → lookupCol t' m = lookupCol t m := by
  induction cs with
  | nil =>
    intro t t' h
    rw [imputar_datos_consumo] at h
    cases Except.ok.inj h
    exact ⟨rfl, rfl, rfl, fun _ _ => rfl⟩
  | cons n rest ih =>
    intro t t' h
    cases hpc : processCol t n with
    | error e => simp [imputar_datos_consumo, hpc] at h
    | ok t1 =>
      simp only [imputar_datos_consumo, hpc] at h
      obtain ⟨hi, hin, hnames, hlook⟩ := processCol_frame hpc
      obtain ⟨hi', hin', hnames', hlook'⟩ := ih h
      refine ⟨hi'.trans hi, hin'.trans hin, hnames'.trans hnames, ?_⟩
      intro m hm
      rw [List.mem_cons] at hm
      push_neg at hm
      exact (hlook' m hm.2).trans (hlook m hm.1)

lemma imputar_allNum_preserved {cs : List String} :
    ∀ {t t' : DataFrame} {m : String} {v : List Cell},
      imputar_datos_consumo t cs = .ok t' →
      lookupCol t m = some v → allNum v = true →
      ∃ v', lookupCol t' m = some v' ∧ allNum v' = true := by
  induction cs with
  | nil =>
    intro t t' m v h hv hall
    rw [imputar_datos_consumo] at h
    cases Except.ok.inj h
    exact ⟨v, hv, hall⟩
  | cons n rest ih =>
    intro t t' m v h hv hall
    cases hpc : processCol t n with
    | error e => simp [imputar_datos_consumo, hpc] at h
    | ok t1 =>
      simp only [imputar_datos_consumo, hpc] at h
      by_cases hmn : m = n
      · subst hmn
        obtain ⟨w, hw, hwall⟩ := processCol_allNum hpc
        exact ih h hw hwall
      · have hl := (processCol_frame hpc).2.2.2 m hmn
        exact ih h (hl.trans hv) hall

lemma imputar_targets_allNum {cs : List String} :
    ∀ {t t' : DataFrame}, imputar_datos_consumo t cs = .ok t' →
      ∀ n ∈ cs, ∃ v, lookupCol t' n = some v ∧ allNum v = true := by
  induction cs with
  | nil => intro t t' h n hn; simp at hn
  | cons k rest ih =>
    intro t t' h n hn
    cases hpc : processCol t k with
    | error e => simp [imputar_datos_consumo, hpc] at h
    | ok t1 =>
      simp only [imputar_datos_consumo, hpc] at h
      rcases List.mem_cons.mp hn with hnk | hnr
      · subst hnk
        obtain ⟨w, hw, hwall⟩ := processCol_allNum hpc
        exact imputar_allNum_preserved h hw hwall
      · exact ih h n hnr

lemma imputar_ok_of_colOk {cs : List String} :
    ∀ {t : DataFrame}, (∀ n ∈ cs, colOk t n = true) →
      ∃ t', imputar_datos_consumo t cs = .ok t' := by
  induction cs with
  | nil => intro t _; exact ⟨t, rfl⟩
  | cons k rest ih =>
    intro t hok
    obtain ⟨t1, hpc⟩ :=
      processCol_ok_of_colOk (hok k (List.mem_cons_self k rest))
    have hok1 : ∀ n ∈ rest, colOk t1 n = true := by
      intro n hn
      by_cases hnk : n = k
      · subst hnk
        obtain ⟨w, hw, hwall⟩ := processCol_allNum hpc
        exact colOk_of_lookup_allNum hw hwall
      · rw [colOk_congr ((processCol_frame hpc).2.2.2 n hnk)]
        exact hok n (List.mem_cons_of_mem k hn)
    obtain ⟨t', h'⟩ := ih hok1
    refine ⟨t', ?_⟩
    simp only [imputar_datos_consumo, hpc]
    exact h'

lemma imputar_id {cs : List String} :
    ∀ {t : DataFrame}, (t.cols.map Prod.fst).Nodup →
      (∀ n ∈ cs, ∃ v, lookupCol t n = some v ∧ allNum v = true) →
      imputar_datos_consumo t cs = .ok t := by
  induction cs with
  | nil => intro t _ _; rfl
  | cons k rest ih =>
    intro t hnd hall
    obtain ⟨v, hv, hvall⟩ := hall k (List.mem_cons_self k rest)
    have hpc := processCol_id hnd hv hvall
    simp only [imputar_datos_consumo, hpc]
    exact ih hnd (fun n hn => hall n (List.mem_cons_of_mem k hn))

lemma imputar_err_exists {cs : List String} :
    ∀ {t : DataFrame}, (∃ n ∈ cs, colOk t n = false) →
      ∃ e, imputar_datos_consumo t cs = .error e := by
  induction cs with
  | nil => intro t ⟨n, hn, _⟩; simp at hn
  | cons k rest ih =>
    intro t ⟨n, hn, hbad⟩
    cases hck : colOk t k with
    | false =>
      rcases processCol_err hck with ⟨_, hpc⟩ | ⟨_, hpc⟩
      · exact ⟨ImputeError.columnNotFound,
          by simp only [imputar_datos_consumo, hpc]⟩
      · exact ⟨ImputeError.nonNumericColumn,
          by simp only [imputar_datos_consumo, hpc]⟩
    | true =>
      obtain ⟨t1, hpc⟩ := processCol_ok_of_colOk hck
      have hnk : n ≠ k := fun hh => by rw [hh, hck] at hbad; exact absurd hbad (by simp)
      have hnr : n ∈ rest := by
        rcases List.mem_cons.mp hn with h1 | h1
        · exact absurd h1 hnk
        · exact h1
      have hbad1 : colOk t1 n = false := by
        rw [colOk_congr ((processCol_frame hpc).2.2.2 n hnk)]
        exact hbad
      obtain ⟨e, he⟩ := ih ⟨n, hnr, hbad1⟩
      refine ⟨e, ?_⟩
      simp only [imputar_datos_consumo, hpc]
      exact he

lemma hasCol_congr {t t1 : DataFrame} {n : String}
    (h : t1.cols.map Prod.fst = t.cols.map Prod.fst) :
    hasCol t1 n = hasCol t n := by
  cases hb : hasCol t n with
  | false =>
    rw [hasCol_false_iff] at hb ⊢
    rw [h]
    exact hb
  | true =>
    obtain ⟨xs, hxs⟩ := lookupCol_isSome_iff.mpr hb
    by_contra hc
    have hf : hasCol t1 n = false := by
      cases hv : hasCol t1 n
      · rfl
      · rw [hv] at hc; exact absurd rfl hc
    rw [hasCol_false_iff, h, ← hasCol_false_iff] at hf
    rw [hb] at hf
    exact absurd hf (by simp)

lemma imputar_err_cnf {cs : List String} :
    ∀ {t : DataFrame}, (∃ n ∈ cs, colOk t n = false) →
      (∀ n ∈ cs, hasCol t n = true → colOk t n = true) →
      imputar_datos_consumo t cs = .error .columnNotFound := by
  induction cs with
  | nil => intro t ⟨n, hn, _⟩ _; simp at hn
  | cons k rest ih =>
    intro t ⟨n, hn, hbad⟩ hpres
    cases hck : colOk t k with
    | false =>
      rcases processCol_err hck with ⟨_, hpc⟩ | ⟨hhas, hpc⟩
      · simp only [imputar_datos_consumo, hpc]
      · exact absurd (hpres k (List.mem_cons_self k rest) hhas)
          (by simp [hck])
    | true =>
      obtain ⟨t1, hpc⟩ := processCol_ok_of_colOk hck
      have hnk : n ≠ k := fun hh => by rw [hh, hck] at hbad; exact absurd hbad (by simp)
      have hnr : n ∈ rest := by
        rcases List.mem_cons.mp hn with h1 | h1
        · exact absurd h1 hnk
        · exact h1
      have hbad1 : colOk t1 n = false := by
        rw [colOk_congr ((processCol_frame hpc).2.2.2 n hnk)]
        exact hbad
      have hpres1 : ∀ m ∈ rest, hasCol t1 m = true → colOk t1 m = true := by
        intro m hm hhas
        by_cases hmk : m = k
        · subst hmk
          obtain ⟨w, hw, hwall⟩ := processCol_allNum hpc
          exact colOk_of_lookup_allNum hw hwall
        · rw [colOk_congr ((processCol_frame hpc).2.2.2 m hmk)]
          rw [hasCol_congr (processCol_frame hpc).2.2.1] at hhas
          exact hpres m (List.mem_cons_of_mem k hm) hhas
      have := ih ⟨n, hnr, hbad1⟩ hpres1
      simp only [imputar_datos_consumo, hpc]
      exact this

lemma imputar_err_nonnum {cs : List String} :
    ∀ {t : DataFrame}, (∃ n ∈ cs, colOk t n = false) →
      (∀ n ∈ cs, hasCol t n = true) →
      imputar_datos_consumo t cs = .error .nonNumericColumn := by
  induction cs with
  | nil => intro t ⟨n, hn, _⟩ _; simp at hn
  | cons k rest ih =>
    intro t ⟨n, hn, hbad⟩ hpres
    cases hck : colOk t k with
    | false =>
      rcases processCol_err hck with ⟨hhas, hpc⟩ | ⟨_, hpc⟩
      · exact absurd (hpres k (List.mem_cons_self k rest)) (by simp [hhas])
      · simp only [imputar_datos_consumo, hpc]
    | true =>
      obtain ⟨t1, hpc⟩ := processCol_ok_of_colOk hck
      have hnk : n ≠ k := fun hh => by rw [hh, hck] at hbad; exact absurd hbad (by simp)
      have hnr : n ∈ rest := by
        rcases List.mem_cons.mp hn with h1 | h1
        · exact absurd h1 hnk
        · exact h1
      have hbad1 : colOk t1 n = false := by
        rw [colOk_congr ((processCol_frame hpc).2.2.2 n hnk)]
        exact hbad
      have hpres1 : ∀ m ∈ rest, hasCol t1 m = true := by
        intro m hm
        rw [hasCol_congr (processCol_frame hpc).2.2.1]
        exact hpres m (List.mem_cons_of_mem k hm)
      have := ih ⟨n, hnr, hbad1⟩ hpres1
      simp only [imputar_datos_consumo, hpc]
      exact this

/-! ### Lemmas about the Date Indexer -/

lemma crear_of_datetime_col {t : DataFrame}
    (h : hasCol t "datetime" = true) : crear_indice_fecha t = .ok t := by
  simp only [crear_indice_fecha, h, if_true]

lemma crear_of_no_year {t : DataFrame} (hdt : hasCol t "datetime" = false)
    (hy : lookupCol t "Year" = none) : crear_indice_fecha t = .ok t := by
  simp only [crear_indice_fecha, hdt, hy, Bool.false_eq_true, if_false]

lemma crear_of_no_month {t : DataFrame} (hdt : hasCol t "datetime" = false)
    (hm : lookupCol t "Month" = none) : crear_indice_fecha t = .ok t := by
  cases hy : lookupCol t "Year" with
  | none => exact crear_of_no_year hdt hy
  | some ys =>
    simp only [crear_indice_fecha, hdt, hy, hm, Bool.false_eq_true, if_false]

lemma crear_build_ok {t : DataFrame} {ys ms ds : List Cell}
    (hdt : hasCol t "datetime" = false)
    (hy : lookupCol t "Year" = some ys) (hm : lookupCol t "Month" = some ms)
    (hb : buildDates (ys.zip ms) = some ds) :
    crear_indice_fecha t =
      .ok { indexName := some "datetime"
            index := ds
            cols := t.cols.filter (fun p => !droppedName p.1) } := by
  simp only [crear_indice_fecha, hdt, hy, hm, hb, Bool.false_eq_true, if_false]

lemma crear_build_err {t : DataFrame} {ys ms : List Cell}
    (hdt : hasCol t "datetime" = false)
    (hy : lookupCol t "Year" = some ys) (hm : lookupCol t "Month" = some ms)
    (hb : buildDates (ys.zip ms) = none) :
    crear_indice_fecha t = .error .malformedDate := by
  simp only [crear_indice_fecha, hdt, hy, hm, hb, Bool.false_eq_true, if_false]

lemma hasCol_filter_dropped {iN : Option String} {ds : List Cell}
    {l : List (String × List Cell)} {n : String} (hn : droppedName n = true) :
    hasCol ⟨iN, ds, l.filter (fun p => !droppedName p.1)⟩ n = false := by
  rw [hasCol_false_iff]
  intro hmem
  simp only [List.mem_map] at hmem
  obtain ⟨p, hp, hpn⟩ := hmem
  have hkeep := (List.mem_filter.mp hp).2
  rw [hpn, hn] at hkeep
  exact absurd hkeep (by simp)

lemma hasCol_filter_subset {t : DataFrame} {iN : Option String}
    {ds : List Cell} {n : String} (f : String × List Cell → Bool)
    (h : hasCol t n = false) :
    hasCol ⟨iN, ds, t.cols.filter f⟩ n = false := by
  rw [hasCol_false_iff] at h ⊢
  intro hmem
  apply h
  simp only [List.mem_map] at hmem ⊢
  obtain ⟨p, hp, hpn⟩ := hmem
  exact ⟨p, (List.mem_filter.mp hp).1, hpn⟩

lemma buildDates_none_of_bad {l : List (Cell × Cell)} :
    (∃ p ∈ l, toDateCell p.1 p.2 = none) → buildDates l = none := by
  induction l with
  | nil => intro ⟨p, hp, _⟩; simp at hp
  | cons a rest ih =>
    intro ⟨p, hp, hbad⟩
    rcases List.mem_cons.mp hp with h1 | h1
    · subst h1
      simp only [buildDates, hbad]
    · rw [buildDates, ih ⟨p, h1, hbad⟩]
      cases toDateCell a.1 a.2 <;> rfl

lemma buildDates_get {l : List (Cell × Cell)} :
    ∀ {ds : List Cell}, buildDates l = some ds →
      ∀ (i : ℕ) (p : Cell × Cell), l[i]? = some p →
        ds[i]? = toDateCell p.1 p.2 := by
  induction l with
  | nil => intro ds h i p hp; simp at hp
  | cons a rest ih =>
    intro ds h i p hp
    cases hd : toDateCell a.1 a.2 with
    | none => simp [buildDates, hd] at h
    | some d =>
      cases hr : buildDates rest with
      | none => simp [buildDates, hd, hr] at h
      | some ds' =>
        simp only [buildDates, hd, hr, Option.some.injEq] at h
        subst h
        cases i with
        | zero =>
          simp only [List.getElem?_cons_zero, Option.some.injEq] at hp
          subst hp
          rw [List.getElem?_cons_zero, hd]
        | succ i' =>
          rw [List.getElem?_cons_succ] at hp ⊢
          exact ih hr i' p hp

lemma buildDates_length {l : List (Cell × Cell)} :
    ∀ {ds : List Cell}, buildDates l = some ds → ds.length = l.length := by
  induction l with
  | nil => intro ds h; simp only [buildDates, Option.some.injEq] at h; simp [← h]
  | cons a rest ih =>
    intro ds h
    cases hd : toDateCell a.1 a.2 with
    | none => simp [buildDates, hd] at h
    | some d =>
      cases hr : buildDates rest with
      | none => simp [buildDates, hd, hr] at h
      | some ds' =>
        simp only [buildDates, hd, hr, Option.some.injEq] at h
        subst h
        simp [ih hr]

lemma zip_getElem {ys : List Cell} :
    ∀ {ms : List Cell} {i : ℕ} {y m : Cell}, ys[i]? = some y →
      ms[i]? = some m → (ys.zip ms)[i]? = some (y, m) := by
  induction ys with
  | nil => intro ms i y m hy _; simp at hy
  | cons c rest ih =>
    intro ms i y m hy hm
    cases ms with
    | nil => simp at hm
    | cons c' rest' =>
      cases i with
      | zero =>
        simp only [List.getElem?_cons_zero, Option.some.injEq] at hy hm
        subst hy; subst hm
        rw [List.zip_cons_cons, List.getElem?_cons_zero]
      | succ i' =>
        rw [List.getElem?_cons_succ] at hy hm
        rw [List.zip_cons_cons, List.getElem?_cons_succ]
        exact ih hy hm

lemma toDateCell_num_eq {y m : ℚ} {c : Cell}
    (h : toDateCell (.num y) (.num m) = some c) :
    c = .date y.num m.num 1 := by
  rw [toDateCell] at h
  by_cases hc : y.den = 1 ∧ m.den = 1 ∧ 1 ≤ y.num ∧ 1 ≤ m.num ∧ m.num ≤ 12
  · rw [if_pos hc] at h
    exact (Option.some.inj h).symm
  · rw [if_neg hc] at h
    exact absurd h (by simp)

/-! ### Concrete tables used by witnesses and counterexamples -/

/-- Witness table for the no-missing guarantee: one numeric target with
gaps, one non-numeric non-target column. -/
def T1 : DataFrame :=
  { indexName := none
    index := [.num 1, .num 2, .num 3]
    cols := [("A", [.na, .num 4, .na]), ("B", [.str "s", .str "u", .na])] }

/-- Witness table for non-target invariance. -/
def T2 : DataFrame :=
  { indexName := some "datetime"
    index := [.date 2020 1 1, .date 2020 2 1]
    cols := [("A", [.na, .num 3]), ("B", [.str "x", .na])] }

/-- The imputation of `T2` on target `A`. -/
def T2imp : DataFrame :=
  { indexName := some "datetime"
    index := [.date 2020 1 1, .date 2020 2 1]
    cols := [("A", [.num 0, .num 3]), ("B", [.str "x", .na])] }

/-- Counterexample table: `datetime` is the table's ordering key (the index
name) while `Year` and `Month` are ordinary columns. -/
def T4 : DataFrame :=
  { indexName := some "datetime"
    index := [.date 1999 1 1]
    cols := [("Year", [.num 2020]), ("Month", [.num 3])] }

/-- Witness table with a `datetime` column next to `Year` and `Month`. -/
def T4b : DataFrame :=
  { indexName := none
    index := [.num 0]
    cols := [("datetime", [.date 2021 5 1]), ("Year", [.num 2020]),
             ("Month", [.num 3])] }

/-- The table of the pre-anchor zero-fill example: keys 1..5, one target
column `X = [NaN, NaN, 5, NaN, 10]`. -/
def T5 : DataFrame :=
  { indexName := none
    index := [.num 1, .num 2, .num 3, .num 4, .num 5]
    cols := [("X", [.na, .na, .num 5, .na, .num 10])] }

/-- Witness table for the malformed-month error: `Month = 13`. -/
def T6 : DataFrame :=
  { indexName := none
    index := [.num 0]
    cols := [("Year", [.num 2020]), ("Month", [.num 13])] }

/-- Counterexample table for the error-precedence claim: target `A` exists
but is non-numeric, target `B` is absent. -/
def T7 : DataFrame :=
  { indexName := none
    index := [.num 1]
    cols := [("A", [.str "x"])] }

/-- Witness table for the amended error claim: numeric `A`, no `B`. -/
def T7b : DataFrame :=
  { indexName := none
    index := [.num 1]
    cols := [("A", [.num 1])] }

/-- Witness table with an entirely missing target column. -/
def T8 : DataFrame :=
  { indexName := none
    index := [.num 1, .num 2, .num 3]
    cols := [("X", [.na, .na, .na]), ("Y", [.num 7, .na, .num 9])] }

/-- Witness table for date synthesis: rows (2020, 3) and (2020, 11). -/
def T9 : DataFrame :=
  { indexName := none
    index := [.num 0, .num 1]
    cols := [("Year", [.num 2020, .num 2020]),
             ("Month", [.num 3, .num 11]),
             ("C", [.num 1, .num 2])] }

/-- Witness table for imputer idempotence. -/
def T10 : DataFrame :=
  { indexName := none
    index := [.num 1, .num 2, .num 3, .num 4]
    cols := [("X", [.na, .num 2, .na, .na]), ("Y", [.str "k", .na, .na, .str "l"])] }

/-- The imputation of `T10` on target `X`. -/
def T10imp : DataFrame :=
  { indexName := none
    index := [.num 1, .num 2, .num 3, .num 4]
    cols := [("X", [.num 0, .num 2, .num 2, .num 2]),
             ("Y", [.str "k", .na, .na, .str "l"])] }

/-! ### Claim theorems -/

/-- C1: for every table `t` and every list of target columns `cs` whose
columns are present in `t` and numeric (`colOk`), imputation succeeds and
every column named in `cs` in the returned table contains zero missing
values. -/
theorem imputar_no_missing (t : DataFrame) (cs : List String)
    (h : ∀ n ∈ cs, colOk t n = true) :
    ∃ t', imputar_datos_consumo t cs = .ok t' ∧
      ∀ n ∈ cs, ∃ v, lookupCol t' n = some v ∧ noNA v = true := by
  obtain ⟨t', ht'⟩ := imputar_ok_of_colOk h
  refine ⟨t', ht', fun n hn => ?_⟩
  obtain ⟨v, hv, hall⟩ := imputar_targets_allNum ht' n hn
  exact ⟨v, hv, noNA_of_allNum hall⟩

/-- C1 witness: the guarantee evaluated on the concrete table `T1` with
target list `["A"]`. -/
theorem imputar_no_missing_witness :
    (∀ n ∈ ["A"], colOk T1 n = true) ∧
    ∃ t', imputar_datos_consumo T1 ["A"] = .ok t' ∧
      ∀ n ∈ ["A"], ∃ v, lookupCol t' n = some v ∧ noNA v = true :=
  ⟨by with_unfolding_all decide,
    imputar_no_missing T1 ["A"] (by with_unfolding_all decide)⟩

/-- C2: for every table `t` and target list `cs`, whenever imputation
returns a table, every column whose name is not in `cs` is returned
unchanged, and the index (key/ordering), its name, and the column-name
sequence of the table are unchanged. -/
theorem imputar_nontarget_invariant (t t' : DataFrame) (cs : List String)
    (k : String) (h : imputar_datos_consumo t cs = .ok t') (hk : k ∉ cs) :
    lookupCol t' k = lookupCol t k ∧ t'.index = t.index ∧
      t'.indexName = t.indexName ∧
      t'.cols.map Prod.fst = t.cols.map Prod.fst := by
  obtain ⟨hi, hiN, hnames, hlook⟩ := imputar_frame h
  exact ⟨hlook k hk, hi, hiN, hnames⟩

/-- C2 witness: non-target invariance evaluated on `T2`, target `["A"]`,
non-target `"B"`. -/
theorem imputar_nontarget_invariant_witness :
    (imputar_datos_consumo T2 ["A"] = .ok T2imp ∧ "B" ∉ ["A"]) ∧
    (lookupCol T2imp "B" = lookupCol T2 "B" ∧ T2imp.index = T2.index ∧
      T2imp.indexName = T2.indexName ∧
      T2imp.cols.map Prod.fst = T2.cols.map Prod.fst) :=
  ⟨⟨by with_unfolding_all decide, by with_unfolding_all decide⟩,
    imputar_nontarget_invariant T2 T2imp ["A"] "B"
      (by with_unfolding_all decide) (by with_unfolding_all decide)⟩

/-- C3: the Date Indexer is idempotent: applying `crear_indice_fecha` to
its own (possibly failing) result gives the same result as applying it
once. -/
theorem crear_indice_fecha_idempotent (t : DataFrame) :
    Except.bind (crear_indice_fecha t) crear_indice_fecha
      = crear_indice_fecha t := by
  cases hdt : hasCol t "datetime" with
  | true =>
    rw [crear_of_datetime_col hdt]
    exact crear_of_datetime_col hdt
  | false =>
    cases hy : lookupCol t "Year" with
    | none =>
      rw [crear_of_no_year hdt hy]
      exact crear_of_no_year hdt hy
    | some ys =>
      cases hm : lookupCol t "Month" with
      | none =>
        rw [crear_of_no_month hdt hm]
        exact crear_of_no_month hdt hm
      | some ms =>
        cases hb : buildDates (ys.zip ms) with
        | none => rw [crear_build_err hdt hy hm hb]; rfl
        | some ds =>
          rw [crear_build_ok hdt hy hm hb]
          have h1 : hasCol
              ⟨some "datetime", ds,
                t.cols.filter (fun p => !droppedName p.1)⟩ "datetime"
              = false :=
            hasCol_filter_subset _ hdt
          have h2 : lookupCol
              ⟨some "datetime", ds,
                t.cols.filter (fun p => !droppedName p.1)⟩ "Year" = none :=
            lookupCol_eq_none_iff.mpr (hasCol_filter_dropped (by rfl))
          exact crear_of_no_year h1 h2

/-- C4 counterexample: on `T4` the chronological key `datetime` exists as
the table's ordering key (its index name) and `Year`/`Month` columns are
present, yet `crear_indice_fecha` does not return an unmodified copy: the
Python code only tests `df.columns` for `datetime`, so it re-derives and
replaces the index. -/
theorem crear_not_noop_on_datetime_index :
    T4.indexName = some "datetime" ∧
    crear_indice_fecha T4 ≠ .ok T4 := by
  with_unfolding_all decide

/-- C4 amended: only a `datetime` COLUMN makes `crear_indice_fecha` a
no-op; for every table with a `datetime` column — even when `Year` and
`Month` columns are also present — the table is returned unchanged.  A
`datetime` ordering key alone (index name) does not prevent re-indexing. -/
theorem crear_noop_of_datetime_column (t : DataFrame)
    (h : hasCol t "datetime" = true) : crear_indice_fecha t = .ok t :=
  crear_of_datetime_col h

/-- C4 amended witness: the no-op evaluated on `T4b`, which has a
`datetime` column together with `Year` and `Month` columns. -/
theorem crear_noop_of_datetime_column_witness :
    hasCol T4b "datetime" = true ∧ crear_indice_fecha T4b = .ok T4b :=
  ⟨by with_unfolding_all decide,
    crear_noop_of_datetime_column T4b (by with_unfolding_all decide)⟩

/-- C5: on keys 1..5 with target column `X = [NaN, NaN, 5, NaN, 10]`,
imputation yields `X = [0, 0, 5, 7.5, 10]`: zeros before the anchor,
present values untouched, linear interpolation from the anchor onward. -/
theorem imputar_preanchor_example :
    imputar_datos_consumo T5 ["X"] =
      .ok { indexName := none
            index := [.num 1, .num 2, .num 3, .num 4, .num 5]
            cols := [("X", [.num 0, .num 0, .num 5, .num (15/2), .num 10])] } := by
  with_unfolding_all decide

/-- C6: for every table with `Year` and `Month` columns and no `datetime`
column, if some row's (Year, Month) pair cannot be parsed into a valid
calendar date (for example `Month = 13`), `crear_indice_fecha` fails with
`malformedDate`. -/
theorem crear_malformed_month (t : DataFrame) (ys ms : List Cell)
    (hdt : hasCol t "datetime" = false)
    (hy : lookupCol t "Year" = some ys)
    (hm : lookupCol t "Month" = some ms)
    (hbad : ∃ p ∈ ys.zip ms, toDateCell p.1 p.2 = none) :
    crear_indice_fecha t = .error DateError.malformedDate :=
  crear_build_err hdt hy hm (buildDates_none_of_bad hbad)

/-- C6 witness: the failure evaluated on `T6`, whose single row has
`Month = 13`. -/
theorem crear_malformed_month_witness :
    (hasCol T6 "datetime" = false ∧ lookupCol T6 "Year" = some [.num 2020] ∧
      lookupCol T6 "Month" = some [.num 13] ∧
      ∃ p ∈ [Cell.num 2020].zip [Cell.num 13], toDateCell p.1 p.2 = none) ∧
    crear_indice_fecha T6 = .error DateError.malformedDate :=
  ⟨⟨by with_unfolding_all decide, by with_unfolding_all decide,
      by with_unfolding_all decide, by with_unfolding_all decide⟩,
    crear_malformed_month T6 [Cell.num 2020] [Cell.num 13]
      (by with_unfolding_all decide) (by with_unfolding_all decide)
      (by with_unfolding_all decide) (by with_unfolding_all decide)⟩

/-- C7 counterexample: in `T7` the requested target `"B"` is absent from
the table, yet `imputar_datos_consumo T7 ["A", "B"]` surfaces
`nonNumericColumn` (raised first, by the earlier non-numeric target `"A"`),
not `columnNotFound` — so an absent target does not always yield
`columnNotFound` as the claim states. -/
theorem imputar_error_order_counterexample :
    ("B" ∈ ["A", "B"] ∧ hasCol T7 "B" = false) ∧
    imputar_datos_consumo T7 ["A", "B"] = .error ImputeError.nonNumericColumn ∧
    ImputeError.nonNumericColumn ≠ ImputeError.columnNotFound := by
  with_unfolding_all decide

/-- C7 amended: if some target in `cs` is unusable (absent, or present
with non-numeric non-missing values, i.e. `colOk` is false), imputation
always fails — the error is surfaced, never swallowed.  The specific error
follows the first offending target in processing order: when every present
target is numeric the error is `columnNotFound`, and when every target is
present it is `nonNumericColumn`; with both kinds of offenders the earlier
one in `cs` decides. -/
theorem imputar_errors_surfaced (t : DataFrame) (cs : List String)
    (h : ∃ n ∈ cs, colOk t n = false) :
    (∃ e, imputar_datos_consumo t cs = .error e) ∧
    ((∀ n ∈ cs, hasCol t n = true → colOk t n = true) →
      imputar_datos_consumo t cs = .error ImputeError.columnNotFound) ∧
    ((∀ n ∈ cs, hasCol t n = true) →
      imputar_datos_consumo t cs = .error ImputeError.nonNumericColumn) :=
  ⟨imputar_err_exists h, fun hp => imputar_err_cnf h hp,
    fun hp => imputar_err_nonnum h hp⟩

/-- C7 amended witness: on `T7b` with targets `["A", "B"]` (`A` numeric,
`B` absent) the call fails, with `columnNotFound`. -/
theorem imputar_errors_surfaced_witness :
    (∃ n ∈ ["A", "B"], colOk T7b n = false) ∧
    ((∃ e, imputar_datos_consumo T7b ["A", "B"] = .error e) ∧
      ((∀ n ∈ ["A", "B"], hasCol T7b n = true → colOk T7b n = true) →
        imputar_datos_consumo T7b ["A", "B"] =
          .error ImputeError.columnNotFound) ∧
      ((∀ n ∈ ["A", "B"], hasCol T7b n = true) →
        imputar_datos_consumo T7b ["A", "B"] =
          .error ImputeError.nonNumericColumn)) :=
  ⟨by with_unfolding_all decide,
    imputar_errors_surfaced T7b ["A", "B"] (by with_unfolding_all decide)⟩

/-- C8: for every table `t` and column `n` of `t` whose cells are all
missing, imputation on `[n]` succeeds and returns `n` as an all-zero
column (hence with no missing values). -/
theorem imputar_all_missing_zero (t : DataFrame) (n : String)
    (xs : List Cell) (h : lookupCol t n = some xs)
    (hna : (xs.all fun c => c.isNA) = true) :
    ∃ t', imputar_datos_consumo t [n] = .ok t' ∧
      lookupCol t' n = some (List.replicate xs.length (Cell.num 0)) := by
  have hfvp : firstValidPos xs = none := by
    rw [firstValidPos_none_iff]
    exact fun c hc => List.all_eq_true.mp hna c hc
  have hmap : xs.map fillna0 = List.replicate xs.length (Cell.num 0) := by
    rw [List.eq_replicate_iff]
    refine ⟨List.length_map xs fillna0, fun b hb => ?_⟩
    obtain ⟨c, hc, rfl⟩ := List.mem_map.mp hb
    have := List.all_eq_true.mp hna c hc
    rw [fillna0, this]
    rfl
  have hpc : processCol t n = .ok (setCol t n (xs.map fillna0)) := by
    simp only [processCol, h, hfvp]
  refine ⟨setCol t n (xs.map fillna0), ?_, ?_⟩
  · simp only [imputar_datos_consumo, hpc]
  · rw [← hmap]
    exact lookupCol_setCol_same h (xs.map fillna0)

/-- C8 witness: the all-zero result evaluated on `T8`, whose column `X` is
entirely missing. -/
theorem imputar_all_missing_zero_witness :
    (lookupCol T8 "X" = some [.na, .na, .na] ∧
      (([Cell.na, .na, .na]).all fun c => c.isNA) = true) ∧
    ∃ t', imputar_datos_consumo T8 ["X"] = .ok t' ∧
      lookupCol t' "X" =
        some (List.replicate ([Cell.na, .na, .na]).length (Cell.num 0)) :=
  ⟨⟨by with_unfolding_all decide, by with_unfolding_all decide⟩,
    imputar_all_missing_zero T8 "X" [.na, .na, .na]
      (by with_unfolding_all decide) (by with_unfolding_all decide)⟩

/-- C9: for every table with `Year` and `Month` columns, no `datetime`
column, and every (Year, Month) pair parseable, `crear_indice_fecha`
succeeds; the resulting ordering key of row `i` is the first day of that
row's year-month, and the `Year`, `Month`, and `Day` columns are absent
from the output. -/
theorem crear_date_synthesis (t : DataFrame) (ys ms ds : List Cell)
    (hdt : hasCol t "datetime" = false)
    (hy : lookupCol t "Year" = some ys)
    (hm : lookupCol t "Month" = some ms)
    (hb : buildDates (ys.zip ms) = some ds) :
    ∃ t', crear_indice_fecha t = .ok t' ∧
      t'.indexName = some "datetime" ∧ t'.index = ds ∧
      (∀ (i : ℕ) (y m : ℚ), ys[i]? = some (.num y) → ms[i]? = some (.num m) →
        t'.index[i]? = some (.date y.num m.num 1)) ∧
      hasCol t' "Year" = false ∧ hasCol t' "Month" = false ∧
      hasCol t' "Day" = false := by
  refine ⟨_, crear_build_ok hdt hy hm hb, rfl, rfl, ?_,
    hasCol_filter_dropped (by rfl), hasCol_filter_dropped (by rfl),
    hasCol_filter_dropped (by rfl)⟩
  intro i y m hyi hmi
  have hz := zip_getElem hyi hmi
  have hds := buildDates_get hb i _ hz
  cases hd : toDateCell (Cell.num y) (Cell.num m) with
  | none =>
    exfalso
    rw [hd] at hds
    have hilt : i < (ys.zip ms).length := by
      rcases List.getElem?_eq_some_iff.mp hz with ⟨hlt, _⟩
      exact hlt
    rw [List.getElem?_eq_none_iff, buildDates_length hb] at hds
    omega
  | some c =>
    rw [hd] at hds
    rw [toDateCell_num_eq hd] at hds
    exact hds

/-- C9 witness: date synthesis evaluated on `T9`, whose rows are
(2020, 3) and (2020, 11), giving keys 2020-03-01 and 2020-11-01. -/
theorem crear_date_synthesis_witness :
    (hasCol T9 "datetime" = false ∧
      lookupCol T9 "Year" = some [.num 2020, .num 2020] ∧
      lookupCol T9 "Month" = some [.num 3, .num 11] ∧
      buildDates (([Cell.num 2020, .num 2020]).zip [Cell.num 3, .num 11]) =
        some [.date 2020 3 1, .date 2020 11 1]) ∧
    ∃ t', crear_indice_fecha T9 = .ok t' ∧
      t'.indexName = some "datetime" ∧
      t'.index = [.date 2020 3 1, .date 2020 11 1] ∧
      (∀ (i : ℕ) (y m : ℚ),
        ([Cell.num 2020, .num 2020])[i]? = some (.num y) →
        ([Cell.num 3, .num 11])[i]? = some (.num m) →
        t'.index[i]? = some (.date y.num m.num 1)) ∧
      hasCol t' "Year" = false ∧ hasCol t' "Month" = false ∧
      hasCol t' "Day" = false :=
  ⟨⟨by with_unfolding_all decide, by with_unfolding_all decide,
      by with_unfolding_all decide, by with_unfolding_all decide⟩,
    crear_date_synthesis T9 [Cell.num 2020, .num 2020] [Cell.num 3, .num 11]
      [.date 2020 3 1, .date 2020 11 1]
      (by with_unfolding_all decide) (by with_unfolding_all decide)
      (by with_unfolding_all decide) (by with_unfolding_all decide)⟩

/-- C10: the Imputer is idempotent: whenever a pass over targets `cs`
succeeds on a table with distinct column names, running the same pass on
its output returns that output unchanged; and a pass with an empty target
list returns the table unchanged. -/
theorem imputar_idempotent (t t' : DataFrame) (cs : List String)
    (hnd : (t.cols.map Prod.fst).Nodup)
    (h : imputar_datos_consumo t cs = .ok t') :
    imputar_datos_consumo t' cs = .ok t' ∧
      imputar_datos_consumo t ([] : List String) = .ok t := by
  refine ⟨?_, rfl⟩
  have hnd' : (t'.cols.map Prod.fst).Nodup := by
    rw [(imputar_frame h).2.2.1]
    exact hnd
  exact imputar_id hnd' (imputar_targets_allNum h)

/-- C10 witness: idempotence evaluated on `T10` with target `["X"]`. -/
theorem imputar_idempotent_witness :
    ((T10.cols.map Prod.fst).Nodup ∧
      imputar_datos_consumo T10 ["X"] = .ok T10imp) ∧
    (imputar_datos_consumo T10imp ["X"] = .ok T10imp ∧
      imputar_datos_consumo T10 ([] : List String) = .ok T10) :=
  ⟨⟨by with_unfolding_all decide, by with_unfolding_all decide⟩,
    imputar_idempotent T10 T10imp ["X"]
      (by with_unfolding_all decide) (by with_unfolding_all decide)⟩

end DataPrep
